import Mathlib

/-!
Shallow embedding of the core of `src/task_manager.py` (a terminal task
manager): the process-table collector `ProcessTable.refresh_processes`,
the kill control `TaskManagerApp.kill_process`, and the severity colour
computation used by `CPUWidget.update_cpu` and `MemoryWidget.update_memory`.

Floating-point percentages are embedded as rationals (only comparisons and
a stable sort are performed on them, never float arithmetic), Python
strings as Lean strings, and the two OS effects the collector depends on
(process enumeration and signal delivery) as explicit inputs:
an enumeration is a list of per-process results, each either a raw info
record or one of the per-process errors caught at lines 106-107 of the
source, and the whole enumeration may itself fail (the `EnumResult`
wrapper), modelling a failure of `psutil.process_iter` itself.
-/

namespace TaskManager

/-- The three per-process exceptions caught at line 106 of the source:
`psutil.NoSuchProcess`, `psutil.AccessDenied`, `psutil.ZombieProcess`. -/
inductive TransientProcessError where
  | noSuchProcess
  | accessDenied
  | zombieProcess
  deriving DecidableEq, Repr

/-- The raw `proc.info` dictionary read for each enumerated process
(line 95: fields pid, name, cpu_percent, memory_percent, status).
Fields other than the pid may be missing (`None` in Python). -/
structure RawProcInfo where
  pid : Int
  name : Option String
  cpu_percent : Option ℚ
  memory_percent : Option ℚ
  status : Option String
  deriving DecidableEq, Repr

/-- One step of the enumeration: either a raw info record or a caught
per-process error. -/
abbrev ProcEntry := Except TransientProcessError RawProcInfo

/-- A whole enumeration: the sequence of per-process results yielded by
`psutil.process_iter`. -/
abbrev Enumeration := List ProcEntry

/-- Collector-level failure: the enumeration primitive itself fails. -/
inductive EnumerationFailure where
  | osError
  deriving DecidableEq, Repr

/-- Result of invoking the enumeration primitive. -/
abbrev EnumResult := Except EnumerationFailure Enumeration

/-- A normalised process record as built at lines 99-105 of the source. -/
structure ProcessRecord where
  pid : Int
  name : String
  cpu : ℚ
  memory : ℚ
  status : String
  deriving DecidableEq, Repr

/-- Python `x or 0` on an optional number: `None` (and `0`, which is falsy)
become `0`; any other value is kept (lines 102-103). -/
def pyOrZero (v : Option ℚ) : ℚ :=
  match v with
  | none => 0
  | some c => if c = 0 then 0 else c

/-- Python `s or d` on an optional string: `None` and the empty string are
falsy and become `d`; any other string is kept (lines 101, 104). -/
def pyOrStr (v : Option String) (d : String) : String :=
  match v with
  | none => d
  | some s => if s = "" then d else s

/-- The enumeration loop at lines 95-107: per-process errors are silently
skipped, records with `pid <= 0` are dropped, missing fields are
defaulted (`name` to "Unknown", `status` to "unknown", percentages to 0). -/
def collectRecords : Enumeration → List ProcessRecord
  | [] => []
  | .error _ :: rest => collectRecords rest
  | .ok info :: rest =>
      if 0 < info.pid then
        { pid := info.pid
          name := pyOrStr info.name "Unknown"
          cpu := pyOrZero info.cpu_percent
          memory := pyOrZero info.memory_percent
          status := pyOrStr info.status "unknown" } :: collectRecords rest
      else
        collectRecords rest

/-- Comparison used by the sort at line 110
(`processes.sort(key=lambda x: x['cpu'], reverse=True)`): `a` may come
before `b` exactly when `b.cpu <= a.cpu`. -/
def cpuDescLe (a b : ProcessRecord) : Bool :=
  decide (b.cpu ≤ a.cpu)

/-- The stable descending sort by cpu of line 110. Python list.sort is a
stable merge sort; `List.mergeSort` is the stable merge sort of the Lean
library, so ties keep their original enumeration order in both. -/
def sortByCpuDesc (ps : List ProcessRecord) : List ProcessRecord :=
  ps.mergeSort cpuDescLe

/-- Python substring test `needle in hay` over character lists. -/
def containsSub (needle : List Char) : List Char → Bool
  | [] => needle.isEmpty
  | c :: rest => needle.isPrefixOf (c :: rest) || containsSub needle rest

/-- Python `str.lower()` (ASCII case folding, as applies to process names). -/
def lowerChars (s : List Char) : List Char :=
  s.map Char.toLower

/-- The filter predicate of lines 114-116:
`search_query.lower() in p['name'].lower() or search_query in str(p['pid'])`. -/
def matchesQuery (q : String) (p : ProcessRecord) : Bool :=
  containsSub (lowerChars q.toList) (lowerChars p.name.toList)
    || containsSub q.toList (toString p.pid).toList

/-- Lines 113-116: the filter runs only when the query is non-empty
(Python: the empty string is falsy). -/
def filterQuery (q : String) (ps : List ProcessRecord) : List ProcessRecord :=
  if q = "" then ps else ps.filter (matchesQuery q)

/-- The record pipeline of `refresh_processes` (lines 95-119): enumerate
and normalise, sort by cpu descending, filter by the query, and keep the
first 30 records (`processes[:30]`). -/
def refreshRecords (enum : Enumeration) (q : String) : List ProcessRecord :=
  (filterQuery q (sortByCpuDesc (collectRecords enum))).take 30

/-- One displayed row as built by `add_row` at lines 119-130 (the one-decimal
number formatting of the cpu and memory cells is kept as the exact value;
the claims under verification concern the style and the truncation). -/
structure Row where
  pidKey : String
  displayName : String
  cpuStyle : String
  cpuValue : ℚ
  memStyle : String
  memValue : ℚ
  status : String
  deriving DecidableEq, Repr

/-- Line 120: `"red" if cpu > 50 else "yellow" if cpu > 20 else "green"`. -/
def cpuStyleOf (c : ℚ) : String :=
  if 50 < c then "red" else if 20 < c then "yellow" else "green"

/-- Line 121: `"red" if memory > 10 else "yellow" if memory > 5 else "green"`. -/
def memStyleOf (m : ℚ) : String :=
  if 10 < m then "red" else if 5 < m then "yellow" else "green"

/-- Lines 123-130: the displayed row of a record; the name is truncated to
its first 30 characters (`proc['name'][:30]`), the row key is `str(pid)`. -/
def mkRow (p : ProcessRecord) : Row :=
  { pidKey := toString p.pid
    displayName := p.name.take 30
    cpuStyle := cpuStyleOf p.cpu
    cpuValue := p.cpu
    memStyle := memStyleOf p.memory
    memValue := p.memory
    status := p.status }

/-- `ProcessTable.refresh_processes` (lines 91-130) as a state transition on
the displayed table. `self.clear()` at line 92 empties the table before the
enumeration runs; if the enumeration primitive itself fails the exception
propagates with the table left cleared, otherwise the freshly built rows
are added to the cleared table. The second component reports whether the
call completed or raised. -/
def refresh_processes (table : List Row) (q : String) (enum : EnumResult) :
    List Row × Except EnumerationFailure Unit :=
  let cleared : List Row := []
  match enum with
  | .error e => (cleared, .error e)
  | .ok procs => (cleared ++ (refreshRecords procs q).map mkRow, .ok ())

/-- The Python default argument of `refresh_processes(self, search_query="")`. -/
def defaultQuery : String := ""

/-- Line 89: `self.set_interval(2.0, self.refresh_processes)`. -/
def processTimerInterval : ℚ := 2

/-- A timer tick: the interval callback registered at line 89 invokes
`refresh_processes` with no argument, hence with the default query. -/
def refreshTick (table : List Row) (enum : EnumResult) :
    List Row × Except EnumerationFailure Unit :=
  refresh_processes table defaultQuery enum

/-- Outcome of the OS signal-delivery primitive `os.kill(pid, SIGKILL)`
at line 283: success, or one of the exceptions distinguished at
lines 286-291. -/
inductive OsKillResult where
  | ok
  | processLookupError
  | permissionError
  | otherError (detail : String)
  deriving DecidableEq, Repr

/-- The classified outcome of a kill request (the four message branches of
`kill_process`, lines 284-291). -/
inductive KillOutcome where
  | success (pid : Int)
  | notFound (pid : Int)
  | permissionDenied (pid : Int)
  | failed (pid : Int) (detail : String)
  deriving DecidableEq, Repr

/-- The signal sent at line 283: `signal.SIGKILL`. -/
def SIGKILL : Nat := 9

/-- `TaskManagerApp.kill_process` (lines 280-291) together with the
`action_refresh` it triggers (line 285, which re-reads the current search
input and refreshes the table, lines 261-265). Returns the classified
outcome and the table state afterwards: refreshed with the current query
exactly on success, untouched on every failure. -/
def kill_process (pid : Int) (currentQuery : String) (os : OsKillResult)
    (table : List Row) (enum : EnumResult) : KillOutcome × List Row :=
  match os with
  | .ok => (.success pid, (refresh_processes table currentQuery enum).1)
  | .processLookupError => (.notFound pid, table)
  | .permissionError => (.permissionDenied pid, table)
  | .otherError d => (.failed pid d, table)

/-- Severity bands of the classifier. -/
inductive Severity where
  | normal
  | warning
  | critical
  deriving DecidableEq, Repr

/-- The colour expression used at lines 31, 36 and 63 of the source:
`"green" if v < low else "yellow" if v < high else "red"`. -/
def severityColor (v low high : ℚ) : String :=
  if v < low then "green" else if v < high then "yellow" else "red"

/-- The classifier of the specification: value below `low` is Normal, in
`[low, high)` Warning, otherwise Critical. -/
def classify (v : ℚ) (bp : ℚ × ℚ) : Severity :=
  if v < bp.1 then .normal else if v < bp.2 then .warning else .critical

/-- CPU breakpoints used at lines 31 and 36. -/
def cpuBreakpoints : ℚ × ℚ := (50, 80)

/-- Memory breakpoints used at line 63. -/
def memBreakpoints : ℚ × ℚ := (60, 85)

/-- Line 31: the aggregate-cpu colour of `CPUWidget.update_cpu`. -/
def update_cpu_color (v : ℚ) : String :=
  severityColor v 50 80

/-- Line 63: the memory colour of `MemoryWidget.update_memory`. -/
def update_memory_color (v : ℚ) : String :=
  severityColor v 60 85

/-- Boolean precondition on one enumeration entry: whatever percentages the
OS reports, when present, are nonnegative. The psutil primitives only ever
report nonnegative percentages; the collector itself never checks this. -/
def rawPercentsNonneg : ProcEntry → Bool
  | .error _ => true
  | .ok info =>
      (match info.cpu_percent with
       | none => true
       | some c => decide (0 ≤ c)) &&
      (match info.memory_percent with
       | none => true
       | some m => decide (0 ≤ m))

/-! ### Concrete fixtures used by witnesses and counterexamples -/

def c3info : RawProcInfo :=
  { pid := 7, name := some "Bash", cpu_percent := some 5,
    memory_percent := some 2, status := some "running" }

def c3enum : Enumeration := [.ok c3info]

def c3rec : ProcessRecord :=
  { pid := 7, name := "Bash", cpu := 5, memory := 2, status := "running" }

def c4infoA : RawProcInfo :=
  { pid := 11, name := some "WindowServer", cpu_percent := some 9,
    memory_percent := some 3, status := some "running" }

def c4infoB : RawProcInfo :=
  { pid := 12, name := some "launchd", cpu_percent := some 5,
    memory_percent := some 1, status := some "sleeping" }

def c4recA : ProcessRecord :=
  { pid := 11, name := "WindowServer", cpu := 9, memory := 3, status := "running" }

def c4recB : ProcessRecord :=
  { pid := 12, name := "launchd", cpu := 5, memory := 1, status := "sleeping" }

/-- Three enumerated processes of which the middle one vanishes mid-read. -/
def c4enum : Enumeration := [.ok c4infoA, .error .noSuchProcess, .ok c4infoB]

open List

/-! ### Helper lemmas about the sort -/

theorem cpuDescLe_trans (a b c : ProcessRecord)
    (h1 : cpuDescLe a b) (h2 : cpuDescLe b c) : cpuDescLe a c := by
  simp only [cpuDescLe, decide_eq_true_eq] at *
  exact le_trans h2 h1

theorem cpuDescLe_total (a b : ProcessRecord) : cpuDescLe a b || cpuDescLe b a := by
  simp only [cpuDescLe, Bool.or_eq_true, decide_eq_true_eq]
  exact le_total b.cpu a.cpu

theorem sortByCpuDesc_pairwise (l : List ProcessRecord) :
    (sortByCpuDesc l).Pairwise (fun a b => b.cpu ≤ a.cpu) := by
  have h := List.sorted_mergeSort cpuDescLe_trans cpuDescLe_total l
  exact List.Pairwise.imp (fun h' => by simpa [cpuDescLe] using h') h

/-- Stability of the sort: filtering by any predicate that pins the sort key
commutes with the sort, so equal-key records keep their original order. -/
theorem sortByCpuDesc_filter_eq (l : List ProcessRecord) (p : ProcessRecord → Bool)
    (hp : ∀ a b, p a = true → p b = true → b.cpu ≤ a.cpu) :
    (sortByCpuDesc l).filter p = l.filter p := by
  have hpair : (l.filter p).Pairwise (fun a b => cpuDescLe a b = true) := by
    apply List.pairwise_of_forall_mem_list
    intro a ha b hb
    rw [List.mem_filter] at ha hb
    simpa [cpuDescLe] using hp a b ha.2 hb.2
  have hsub : l.filter p <+ List.mergeSort l cpuDescLe :=
    List.sublist_mergeSort cpuDescLe_trans cpuDescLe_total hpair (List.filter_sublist l)
  have h2 : l.filter p <+ (List.mergeSort l cpuDescLe).filter p := by
    have h3 := hsub.filter p
    rwa [List.filter_filter, show (fun a => p a && p a) = p from funext fun a => Bool.and_self _]
      at h3
  have hperm : (List.mergeSort l cpuDescLe).filter p ~ l.filter p :=
    (List.mergeSort_perm l cpuDescLe).filter p
  exact (h2.eq_of_length hperm.length_eq.symm).symm

theorem refreshRecords_sublist_sorted (enum : Enumeration) (q : String) :
    refreshRecords enum q <+ sortByCpuDesc (collectRecords enum) := by
  have h1 : filterQuery q (sortByCpuDesc (collectRecords enum)) <+
      sortByCpuDesc (collectRecords enum) := by
    unfold filterQuery
    split
    · exact List.Sublist.refl _
    · exact List.filter_sublist _
  exact (List.take_sublist _ _).trans h1

theorem refreshRecords_pairwise (enum : Enumeration) (q : String) :
    (refreshRecords enum q).Pairwise (fun a b => b.cpu ≤ a.cpu) :=
  List.Pairwise.sublist (refreshRecords_sublist_sorted enum q)
    (sortByCpuDesc_pairwise (collectRecords enum))

/-! ### Claims -/

/-- C1: for every enumeration and query, the snapshot produced by the
collector holds at most 30 records, the truncation to the first 30 is
applied after the query filter (and after the sort), and the displayed
table likewise never holds more than 30 rows. -/
theorem C1_snapshot_bounded_by_30 (enum : Enumeration) (q : String) (table : List Row) :
    (refreshRecords enum q).length ≤ 30 ∧
    refreshRecords enum q = (filterQuery q (sortByCpuDesc (collectRecords enum))).take 30 ∧
    (refresh_processes table q (.ok enum)).1.length ≤ 30 := by
  refine ⟨?_, rfl, ?_⟩
  · simp only [refreshRecords, List.length_take]
    exact min_le_left _ _
  · show ((refreshRecords enum q).map mkRow).length ≤ 30
    simp only [List.length_map, refreshRecords, List.length_take]
    exact min_le_left _ _

/-- C2: the snapshot is sorted by cpu descending (each record's cpu is at
least the next one's), and the sort is stable: for any cpu value `c`, the
snapshot's records with cpu `c` appear as a sublist of the collected
records with cpu `c` in their original enumeration order. -/
theorem C2_sorted_descending_and_stable (enum : Enumeration) (q : String) :
    (refreshRecords enum q).Chain' (fun a b => b.cpu ≤ a.cpu) ∧
    ∀ c : ℚ, (refreshRecords enum q).filter (fun r => decide (r.cpu = c)) <+
      (collectRecords enum).filter (fun r => decide (r.cpu = c)) := by
  constructor
  · exact (refreshRecords_pairwise enum q).chain'
  · intro c
    have hkey : ∀ a b : ProcessRecord,
        (fun r => decide (r.cpu = c)) a = true → (fun r => decide (r.cpu = c)) b = true →
        b.cpu ≤ a.cpu := by
      intro a b ha hb
      simp only [decide_eq_true_eq] at ha hb
      rw [ha, hb]
    have hstep : (refreshRecords enum q).filter (fun r => decide (r.cpu = c)) <+
        (filterQuery q (sortByCpuDesc (collectRecords enum))).filter
          (fun r => decide (r.cpu = c)) :=
      (List.take_sublist _ _).filter _
    refine hstep.trans ?_
    unfold filterQuery
    split
    · rw [sortByCpuDesc_filter_eq (collectRecords enum) _ hkey]
    · rw [List.filter_filter]
      have hkey2 : ∀ a b : ProcessRecord,
          (fun r => decide (r.cpu = c) && matchesQuery q r) a = true →
          (fun r => decide (r.cpu = c) && matchesQuery q r) b = true → b.cpu ≤ a.cpu := by
        intro a b ha hb
        simp only [Bool.and_eq_true, decide_eq_true_eq] at ha hb
        rw [ha.1, hb.1]
      rw [sortByCpuDesc_filter_eq (collectRecords enum) _ hkey2]
      exact List.monotone_filter_right _ fun a ha => by
        simp only [Bool.and_eq_true] at ha
        exact ha.1

/-! ### Evaluation lemmas for the fixtures -/

theorem collect_c3 : collectRecords c3enum = [c3rec] := by decide

theorem refresh_c3_empty : refreshRecords c3enum "" = [c3rec] := by
  unfold refreshRecords sortByCpuDesc
  rw [collect_c3, List.mergeSort_singleton]
  decide

theorem refresh_c3_ba : refreshRecords c3enum "ba" = [c3rec] := by
  unfold refreshRecords sortByCpuDesc
  rw [collect_c3, List.mergeSort_singleton]
  decide

theorem refresh_c3_z : refreshRecords c3enum "z" = [] := by
  unfold refreshRecords sortByCpuDesc
  rw [collect_c3, List.mergeSort_singleton]
  decide

theorem refresh_c3_999999 : refreshRecords c3enum "999999" = [] := by
  unfold refreshRecords sortByCpuDesc
  rw [collect_c3, List.mergeSort_singleton]
  decide

theorem collect_c4 : collectRecords c4enum = [c4recA, c4recB] := by decide

theorem refresh_c4 : refreshRecords c4enum "" = [c4recA, c4recB] := by
  unfold refreshRecords sortByCpuDesc
  rw [collect_c4, List.mergeSort_of_sorted (by decide)]
  decide

/-! ### Remaining claims -/

/-- C3: every record surviving a non-empty query matches it (the name
contains the query case-insensitively, or the decimal form of the pid
contains it literally); the empty query filters nothing; and a query
matching no process (here "999999") yields an empty snapshot rather than
an error. -/
theorem C3_query_filter (enum : Enumeration) (q : String) (table : List Row) :
    (q ≠ "" → ∀ r ∈ refreshRecords enum q,
      containsSub (lowerChars q.toList) (lowerChars r.name.toList) = true ∨
      containsSub q.toList (toString r.pid).toList = true) ∧
    refreshRecords enum "" = (sortByCpuDesc (collectRecords enum)).take 30 ∧
    refreshRecords c3enum "999999" = [] ∧
    (refresh_processes table "999999" (.ok c3enum)).2 = .ok () := by
  refine ⟨?_, by simp [refreshRecords, filterQuery], refresh_c3_999999, rfl⟩
  intro hq r hr
  have hr1 : r ∈ filterQuery q (sortByCpuDesc (collectRecords enum)) :=
    List.mem_of_mem_take hr
  rw [filterQuery, if_neg hq, List.mem_filter] at hr1
  have hm := hr1.2
  rw [matchesQuery, Bool.or_eq_true] at hm
  exact hm

theorem C3_query_filter_witness :
    containsSub (lowerChars "ba".toList) (lowerChars c3rec.name.toList) = true ∨
    containsSub "ba".toList (toString c3rec.pid).toList = true :=
  (C3_query_filter c3enum "ba" []).1 (by decide) c3rec
    (by rw [refresh_c3_ba]; exact List.mem_singleton.mpr rfl)

/-- C4: a per-process error anywhere in the enumeration is silently skipped
and contributes nothing: collecting with the error entry removed gives the
same records; on the concrete three-process enumeration whose middle
process has vanished, refreshing with the empty query returns exactly the
other two records and reports no failure. -/
theorem C4_per_process_errors_skipped (pre post : Enumeration)
    (e : TransientProcessError) (table : List Row) :
    collectRecords (pre ++ .error e :: post) = collectRecords (pre ++ post) ∧
    refreshRecords c4enum "" = [c4recA, c4recB] ∧
    refresh_processes table "" (.ok c4enum) = ([mkRow c4recA, mkRow c4recB], .ok ()) := by
  refine ⟨?_, refresh_c4, by simp [refresh_processes, refresh_c4]⟩
  induction pre with
  | nil => rfl
  | cons hd tl ih =>
    cases hd with
    | error err => simpa [collectRecords] using ih
    | ok info =>
      simp only [List.cons_append, collectRecords]
      split
      · exact congrArg _ ih
      · exact ih

/-- C5 fails on the code: the displayed table is cleared before the
enumeration runs, so after an enumeration-primitive failure the previous
rows are gone rather than retained. Concretely, a table holding one row is
not left unchanged by a failing refresh. -/
theorem C5_counterexample :
    (refresh_processes [mkRow c3rec] "" (.error .osError)).1 ≠ [mkRow c3rec] := by
  decide

/-- C5 (amended): if the enumeration primitive itself fails, refresh fails
and the table is left cleared (empty), because the display is cleared
before enumeration begins; on success the table is wholly replaced by the
fresh snapshot. -/
theorem C5_amended_cleared_on_failure (table : List Row) (q : String)
    (e : EnumerationFailure) (enum : Enumeration) :
    refresh_processes table q (.error e) = ([], .error e) ∧
    refresh_processes table q (.ok enum) = ((refreshRecords enum q).map mkRow, .ok ()) :=
  ⟨rfl, rfl⟩

/-- C6: kill sends SIGKILL and classifies the outcome: absent process gives
NotFound, missing privilege gives PermissionDenied, any other OS failure
gives Failed with its detail, success gives Success; and exactly on
success the table is immediately refreshed with the current query, while
every failure leaves it untouched. -/
theorem C6_kill_classification (pid : Int) (q d : String) (table : List Row)
    (enum : EnumResult) :
    kill_process pid q .ok table enum =
      (.success pid, (refresh_processes table q enum).1) ∧
    kill_process pid q .processLookupError table enum = (.notFound pid, table) ∧
    kill_process pid q .permissionError table enum = (.permissionDenied pid, table) ∧
    kill_process pid q (.otherError d) table enum = (.failed pid d, table) ∧
    SIGKILL = 9 :=
  ⟨rfl, rfl, rfl, rfl, rfl⟩

/-- C7 fails on the code: the timer callback registered at line 89 invokes
`refresh_processes` with no argument, so a tick filters with the default
empty query, not with the last externally supplied one. With last query
"z" (matching nothing) the tick shows one row where the external refresh
shows none. -/
theorem C7_counterexample :
    (refreshTick [] (.ok c3enum)).1 ≠ (refresh_processes [] "z" (.ok c3enum)).1 := by
  show (refreshRecords c3enum defaultQuery).map mkRow ≠
    (refreshRecords c3enum "z").map mkRow
  rw [show defaultQuery = "" from rfl, refresh_c3_empty, refresh_c3_z]
  decide

/-- C7 (amended): every timer-driven invocation (period 2.0 s) calls refresh
with the empty default query, regardless of the query of the most recent
external refresh, so a tick produces the unfiltered snapshot. -/
theorem C7_amended_timer_uses_default_query (table : List Row) (enum : EnumResult) :
    refreshTick table enum = refresh_processes table "" enum ∧
    processTimerInterval = 2 :=
  ⟨rfl, rfl⟩

/-- C8: the classifier is a total function of the value and the breakpoints:
below `low` is Normal, in `[low, high)` is Warning, at or above `high` is
Critical (for the default CPU breakpoints this holds for every value,
including negative and over-100 ones); it agrees band-for-band with the
colour expression the widgets actually evaluate; the CPU widgets use
breakpoints (50, 80) and the memory widget (60, 85); and
classify(40) = Normal, classify(65) = Warning, classify(95) = Critical at
the CPU defaults. -/
theorem C8_classifier_bands (v low high : ℚ) :
    (classify v (low, high) = .normal ↔ v < low) ∧
    (classify v (low, high) = .warning ↔ low ≤ v ∧ v < high) ∧
    (classify v (low, high) = .critical ↔ low ≤ v ∧ high ≤ v) ∧
    severityColor v low high =
      (match classify v (low, high) with
       | .normal => "green"
       | .warning => "yellow"
       | .critical => "red") ∧
    update_cpu_color v = severityColor v cpuBreakpoints.1 cpuBreakpoints.2 ∧
    update_memory_color v = severityColor v memBreakpoints.1 memBreakpoints.2 ∧
    cpuBreakpoints = (50, 80) ∧ memBreakpoints = (60, 85) ∧
    (classify v cpuBreakpoints = .normal ↔ v < 50) ∧
    (classify v cpuBreakpoints = .warning ↔ 50 ≤ v ∧ v < 80) ∧
    (classify v cpuBreakpoints = .critical ↔ 80 ≤ v) ∧
    classify 40 cpuBreakpoints = .normal ∧
    classify 65 cpuBreakpoints = .warning ∧
    classify 95 cpuBreakpoints = .critical := by
  have hb : ∀ lo hi : ℚ,
      (classify v (lo, hi) = .normal ↔ v < lo) ∧
      (classify v (lo, hi) = .warning ↔ lo ≤ v ∧ v < hi) ∧
      (classify v (lo, hi) = .critical ↔ lo ≤ v ∧ hi ≤ v) := by
    intro lo hi
    unfold classify
    split_ifs with h1 h2 <;>
      refine ⟨?_, ?_, ?_⟩ <;> simp_all <;> try linarith
  have hcolor : severityColor v low high =
      (match classify v (low, high) with
       | .normal => "green"
       | .warning => "yellow"
       | .critical => "red") := by
    unfold severityColor classify
    split_ifs <;> rfl
  refine ⟨(hb low high).1, (hb low high).2.1, (hb low high).2.2, hcolor, rfl, rfl, rfl, rfl,
    ?_, ?_, ?_, by decide, by decide, by decide⟩
  · exact (hb 50 80).1
  · exact (hb 50 80).2.1
  · rw [show cpuBreakpoints = ((50 : ℚ), (80 : ℚ)) from rfl, (hb 50 80).2.2]
    constructor
    · exact fun h => h.2
    · exact fun h => ⟨by linarith, h⟩

theorem pyOrZero_nonneg (v : Option ℚ) (hv : ∀ c, v = some c → 0 ≤ c) :
    0 ≤ pyOrZero v := by
  cases v with
  | none => exact le_refl 0
  | some c =>
    show 0 ≤ if c = 0 then 0 else c
    split_ifs with h0
    · exact le_refl 0
    · exact hv c rfl

theorem pyOrStr_ne_empty (v : Option String) (d : String) (hd : d ≠ "") :
    pyOrStr v d ≠ "" := by
  cases v with
  | none => exact hd
  | some s =>
    show (if s = "" then d else s) ≠ ""
    split_ifs with h0
    · exact hd
    · exact h0

/-- Every record the collector builds satisfies the ProcessRecord invariant,
provided the OS-reported percentages (when present) are nonnegative. -/
theorem collectRecords_invariant (enum : Enumeration)
    (hnn : enum.all rawPercentsNonneg = true) :
    ∀ r ∈ collectRecords enum,
      0 < r.pid ∧ r.name ≠ "" ∧ r.status ≠ "" ∧ 0 ≤ r.cpu ∧ 0 ≤ r.memory := by
  induction enum with
  | nil => intro r hr; simp [collectRecords] at hr
  | cons hd tl ih =>
    rw [List.all_cons, Bool.and_eq_true] at hnn
    intro r hr
    cases hd with
    | error err => exact ih hnn.2 r hr
    | ok info =>
      have hcpu' : ∀ c, info.cpu_percent = some c → 0 ≤ c := by
        intro c hc
        have h := hnn.1
        simp only [rawPercentsNonneg, hc, Bool.and_eq_true, decide_eq_true_eq] at h
        exact h.1
      have hmem' : ∀ m, info.memory_percent = some m → 0 ≤ m := by
        intro m hm
        have h := hnn.1
        simp only [rawPercentsNonneg, hm, Bool.and_eq_true, decide_eq_true_eq] at h
        exact h.2
      simp only [collectRecords] at hr
      by_cases hpid : 0 < info.pid
      · rw [if_pos hpid] at hr
        rcases List.mem_cons.mp hr with hreq | hmem
        · subst hreq
          exact ⟨hpid, pyOrStr_ne_empty _ _ (by decide), pyOrStr_ne_empty _ _ (by decide),
            pyOrZero_nonneg _ hcpu', pyOrZero_nonneg _ hmem'⟩
        · exact ih hnn.2 r hmem
      · rw [if_neg hpid] at hr
        exact ih hnn.2 r hr

/-- C9: every record of every snapshot satisfies the ProcessRecord
invariant: positive pid, non-empty name (defaulting to "Unknown"),
non-empty status (defaulting to "unknown"), and nonnegative cpu and
memory percentages (defaulting to 0), given that the OS-reported
percentages are themselves nonnegative when present. -/
theorem C9_record_invariant (enum : Enumeration) (q : String)
    (hnn : enum.all rawPercentsNonneg = true) :
    ∀ r ∈ refreshRecords enum q,
      0 < r.pid ∧ r.name ≠ "" ∧ r.status ≠ "" ∧ 0 ≤ r.cpu ∧ 0 ≤ r.memory := by
  intro r hr
  have h1 : r ∈ List.mergeSort (collectRecords enum) cpuDescLe := by
    simpa [sortByCpuDesc] using (refreshRecords_sublist_sorted enum q).subset hr
  exact collectRecords_invariant enum hnn r (List.mem_mergeSort.mp h1)

theorem C9_record_invariant_witness :
    0 < c3rec.pid ∧ c3rec.name ≠ "" ∧ c3rec.status ≠ "" ∧
    0 ≤ c3rec.cpu ∧ 0 ≤ c3rec.memory :=
  C9_record_invariant c3enum "" (by decide) c3rec
    (by rw [refresh_c3_empty]; exact List.mem_singleton.mpr rfl)

theorem cpuStyleOf_bands (c : ℚ) :
    (cpuStyleOf c = "red" ↔ 50 < c) ∧
    (cpuStyleOf c = "yellow" ↔ 20 < c ∧ c ≤ 50) ∧
    (cpuStyleOf c = "green" ↔ c ≤ 20) := by
  unfold cpuStyleOf
  split_ifs with h1 h2 <;>
    refine ⟨?_, ?_, ?_⟩ <;> simp_all <;> try linarith

theorem memStyleOf_bands (m : ℚ) :
    (memStyleOf m = "red" ↔ 10 < m) ∧
    (memStyleOf m = "yellow" ↔ 5 < m ∧ m ≤ 10) ∧
    (memStyleOf m = "green" ↔ m ≤ 5) := by
  unfold memStyleOf
  split_ifs with h1 h2 <;>
    refine ⟨?_, ?_, ?_⟩ <;> simp_all <;> try linarith

/-- C10: each displayed row colours its cells with thresholds of its own,
distinct from the classifier breakpoints: the cpu cell is red exactly when
cpu > 50, yellow exactly when 20 < cpu <= 50 and green exactly when
cpu <= 20; the memory cell is red exactly when memory > 10, yellow exactly
when 5 < memory <= 10 and green exactly when memory <= 5; the displayed
name is the first 30 characters of the record's name (which the filter
matched in full); and the displayed table is exactly the snapshot's
records rendered as rows. -/
theorem C10_row_styles_and_truncation (p : ProcessRecord) (enum : Enumeration)
    (q : String) (table : List Row) :
    ((mkRow p).cpuStyle = "red" ↔ 50 < p.cpu) ∧
    ((mkRow p).cpuStyle = "yellow" ↔ 20 < p.cpu ∧ p.cpu ≤ 50) ∧
    ((mkRow p).cpuStyle = "green" ↔ p.cpu ≤ 20) ∧
    ((mkRow p).memStyle = "red" ↔ 10 < p.memory) ∧
    ((mkRow p).memStyle = "yellow" ↔ 5 < p.memory ∧ p.memory ≤ 10) ∧
    ((mkRow p).memStyle = "green" ↔ p.memory ≤ 5) ∧
    (mkRow p).displayName = p.name.take 30 ∧
    (refresh_processes table q (.ok enum)).1 = (refreshRecords enum q).map mkRow := by
  have hc := cpuStyleOf_bands p.cpu
  have hm := memStyleOf_bands p.memory
  have hdn : (mkRow p).displayName = p.name.take 30 := by rw [mkRow]
  exact ⟨hc.1, hc.2.1, hc.2.2, hm.1, hm.2.1, hm.2.2, hdn, rfl⟩

end TaskManager
